import Mathlib

/-!
Verification of dbot's profile compiler.

This file shallowly embeds the data model and the operations of the
profile compiler found in `src/profile.rs`, `src/compile.rs`,
`src/merge.rs` and `src/pattern.rs`, and proves properties of that
embedding.

Modelling conventions:
* A filesystem path (`PathBuf`) is its list of normal components
  (`Path := List String`); `PathBuf::join` on relative paths is list
  append, and `PathBuf` ordering is lexicographic on components, which
  is the order of `List String` under the `List.Lex` linear order.
* `Rc`, `OnceCell` caching and `&mut` threading are pure sharing and
  performance devices; they are modelled by plain values and explicit
  state passing.
* A glob pattern is its source text; `globset` pattern compilation of
  already-parsed globs is modelled as total (the `InvalidPatternSet`
  error path of `ProfileAttrBuilder::build` is therefore not taken in
  the model), and matching supports literal characters plus the
  wildcards used on bare filenames.
* `HashMap` values are association lists whose key order is the
  (unspecified) iteration order; map-shaped facts are stated through
  `lookup`/`containsKey`, which are order-insensitive.
* Fallible operations return `Except Error`; filesystem access is
  explicit against an `FsNode` tree, with the metadata call modelling
  `std::fs::metadata` (which follows symlinks).
-/

namespace Dbot

/-- A relative filesystem path, as its list of normal components.
`PathBuf::join` with a relative argument appends components. -/
abbrev Path := List String

/-- `AttrType` from `src/profile.rs`: `Copy` (the `#[default]`), `Link`,
`Template`. -/
inductive AttrType where
  | copy
  | link
  | template
deriving DecidableEq, Repr

/-- Fuel-driven glob matching over character lists: literal characters,
`?` for one character and `*` for any run of characters. Each step
consumes one fuel unit and shrinks `pattern.length + text.length`, so
`globMatch` below always supplies enough fuel. -/
def globMatchFuel : Nat → List Char → List Char → Bool
  | 0, _, _ => false
  | fuel + 1, pattern, text =>
    match pattern, text with
    | [], [] => true
    | [], _ :: _ => false
    | '*' :: ps, [] => globMatchFuel fuel ps []
    | '*' :: ps, c :: cs =>
      globMatchFuel fuel ps (c :: cs) || globMatchFuel fuel ('*' :: ps) cs
    | '?' :: ps, _ :: cs => globMatchFuel fuel ps cs
    | '?' :: _, [] => false
    | pc :: ps, c :: cs => pc == c && globMatchFuel fuel ps cs
    | _ :: _, [] => false

/-- Whether one glob pattern matches a name. -/
def globMatch (pattern text : List Char) : Bool :=
  globMatchFuel (pattern.length + text.length + 1) pattern text

/-- `PatternSetBuilder` from `src/pattern.rs`: an (uncompiled) list of
glob patterns. The `OnceCell` compilation cache is a memoisation device
with no semantic content. -/
abbrev PatternSetBuilder := List String

/-- `PatternSetBuilder::extend`: this set's patterns followed by the
other set's patterns. -/
def PatternSetBuilder.extend (self other : PatternSetBuilder) : PatternSetBuilder :=
  self ++ other

/-- A compiled `PatternSet` (`src/pattern.rs`). The default value is the
empty set, which matches nothing. -/
structure PatternSet where
  globs : List String
deriving DecidableEq, Repr

/-- `PatternSetBuilder::build`. Compilation of globs that already parsed
cannot fail and is modelled as total. -/
def PatternSetBuilder.build (self : PatternSetBuilder) : PatternSet :=
  ⟨self⟩

/-- `PatternSet::is_match`: whether any pattern of the set matches the
given name. It receives whatever string the caller passes; the compiler
passes bare filenames. -/
def PatternSet.is_match (self : PatternSet) (name : String) : Bool :=
  self.globs.any fun pat => globMatch pat.toList name.toList

/-- `ProfileAttrBuilder` from `src/profile.rs`: the partial attribute
fragment of one node; every field is optional. The `ignore` field's
`Rc<CachedPatternSetBuilder>` is modelled by the pattern list it wraps. -/
structure ProfileAttrBuilder where
  source : Option Path
  ty : Option AttrType
  recursive : Option Bool
  ignore : Option PatternSetBuilder
deriving DecidableEq, Repr

/-- `ProfileAttrBuilder::default()`: every field absent. -/
def ProfileAttrBuilder.empty : ProfileAttrBuilder :=
  ⟨none, none, none, none⟩

instance : Inhabited ProfileAttrBuilder :=
  ⟨ProfileAttrBuilder.empty⟩

/-- `Merge for Option<T>` from `src/merge.rs`: the other value wins
whenever it is present. -/
def mergeOption {α : Type} (self other : Option α) : Option α :=
  match other with
  | some v => some v
  | none => self

/-- `Merge for ProfileAttrBuilder` from `src/profile.rs`: `source`,
`ty` and `recursive` merge by `mergeOption` (last merged wins); a
present, non-empty incoming `ignore` list is appended onto this
fragment's list (or onto the default empty list), while an absent or
empty incoming list changes nothing. -/
def ProfileAttrBuilder.merge (self other : ProfileAttrBuilder) : ProfileAttrBuilder :=
  { source := mergeOption self.source other.source
    ty := mergeOption self.ty other.ty
    recursive := mergeOption self.recursive other.recursive
    ignore :=
      match other.ignore with
      | none => self.ignore
      | some o =>
        if o.isEmpty then self.ignore
        else some (PatternSetBuilder.extend (self.ignore.getD []) o) }

/-- `extend_set_build` from `src/profile.rs`: this node's patterns
followed by the parent's patterns. -/
def extend_set_build (self parent : PatternSetBuilder) : PatternSetBuilder :=
  PatternSetBuilder.extend self parent

/-- `inherit_attr` from `src/profile.rs`: resolve a node's fragment
against the parent's resolved fragment. A declared `source` is kept;
otherwise the parent's source (when present) is joined with the node's
path component. `ty` and `recursive` are plain override-if-absent, and
`ignore` lists are unioned. The Rust function returns `Ok` on every
path, so it is modelled as a pure function. -/
def inherit_attr (target : Path) (attr parent : ProfileAttrBuilder) : ProfileAttrBuilder :=
  { source :=
      match attr.source with
      | some s => some s
      | none => parent.source.map fun p => p ++ target
    ty :=
      match attr.ty with
      | some t => some t
      | none => parent.ty
    recursive :=
      match attr.recursive with
      | some r => some r
      | none => parent.recursive
    ignore :=
      match attr.ignore, parent.ignore with
      | some this, some par => some (extend_set_build this par)
      | some v, none => some v
      | none, some v => some v
      | none, none => none }

/-- `ProfileAttr` from `src/profile.rs`: a fully resolved attribute. -/
structure ProfileAttr where
  source : Path
  ty : AttrType
  recursive : Bool
  ignore : PatternSet
deriving DecidableEq, Repr

/-- `ProfileAttrBuilder::build` from `src/profile.rs`: a node with no
resolved `source` builds to nothing; otherwise `ty` defaults to `Copy`,
`recursive` to `false` and an absent `ignore` list to the empty pattern
set. The `target` argument only decorates the (unmodelled, see the file
header) pattern-compilation error. -/
def ProfileAttrBuilder.build (self : ProfileAttrBuilder) (_target : Path) : Option ProfileAttr :=
  self.source.map fun s =>
    { source := s
      ty := self.ty.getD AttrType.copy
      recursive := self.recursive.getD false
      ignore := PatternSetBuilder.build (self.ignore.getD []) }

/-- C1: In inheritance resolution, a node that declares its own `source`
keeps it unchanged; a node that does not gets the parent's resolved
source joined with the node's path component when the parent has one,
and no resolved source otherwise. -/
theorem c1_inherit_attr_source : ∀ (target : Path) (attr parent : ProfileAttrBuilder),
    (inherit_attr target attr parent).source =
      match attr.source with
      | some s => some s
      | none => parent.source.map fun p => p ++ target := by
  intro target attr parent
  rfl

/-- C8: Merging fragment `b` into fragment `a` takes `b`'s `source`,
`ty` and `recursive` whenever declared and `a`'s otherwise; it appends a
non-empty incoming `ignore` list onto `a`'s list and leaves `ignore`
unchanged when `b`'s list is absent or empty. In particular merging a
fragment with `recursive: true` and no `source` keeps `a`'s source and
sets `recursive` to `true`. -/
theorem c8_attr_merge : ∀ (a b : ProfileAttrBuilder),
    ((a.merge b).source = match b.source with | some s => some s | none => a.source)
    ∧ ((a.merge b).ty = match b.ty with | some t => some t | none => a.ty)
    ∧ ((a.merge b).recursive = match b.recursive with | some r => some r | none => a.recursive)
    ∧ (b.ignore = none → (a.merge b).ignore = a.ignore)
    ∧ (b.ignore = some [] → (a.merge b).ignore = a.ignore)
    ∧ (∀ l, b.ignore = some l → l ≠ [] →
        (a.merge b).ignore = some (a.ignore.getD [] ++ l))
    ∧ (b.source = none → b.recursive = some true →
        (a.merge b).source = a.source ∧ (a.merge b).recursive = some true) := by
  intro a b
  refine ⟨?_, ?_, ?_, ?_, ?_, ?_, ?_⟩
  · cases hb : b.source <;> simp [ProfileAttrBuilder.merge, mergeOption, hb]
  · cases hb : b.ty <;> simp [ProfileAttrBuilder.merge, mergeOption, hb]
  · cases hb : b.recursive <;> simp [ProfileAttrBuilder.merge, mergeOption, hb]
  · intro h
    simp [ProfileAttrBuilder.merge, h]
  · intro h
    simp [ProfileAttrBuilder.merge, h]
  · intro l h hne
    simp [ProfileAttrBuilder.merge, h, List.isEmpty_iff, hne, PatternSetBuilder.extend]
  · intro hs hr
    constructor
    · simp [ProfileAttrBuilder.merge, hs, mergeOption]
    · simp [ProfileAttrBuilder.merge, hr, mergeOption]

/-- `ProfileNode` from `src/profile.rs`: an attribute fragment plus a
`HashMap<PathBuf, ProfileNode>` of children, modelled as an association
list from (possibly multi-component) relative paths to child nodes. -/
inductive ProfileNode where
  | mk (attr : ProfileAttrBuilder) (children : List (Path × ProfileNode))

instance : Inhabited ProfileNode :=
  ⟨.mk ProfileAttrBuilder.empty []⟩

/-- The node's own attribute fragment. -/
def ProfileNode.attr : ProfileNode → ProfileAttrBuilder
  | .mk a _ => a

/-- The node's children map, as an association list. -/
def ProfileNode.children : ProfileNode → List (Path × ProfileNode)
  | .mk _ c => c

/-- `Profile` from `src/profile.rs`: a transparent wrapper around the
root declaration node. -/
structure Profile where
  root : ProfileNode

/-- First-match lookup in an association list, the observable content
of a `HashMap` (whose iteration order is unspecified). -/
def lookupKey {α β : Type} [DecidableEq α] : List (α × β) → α → Option β
  | [], _ => none
  | (k, v) :: rest, key => if k = key then some v else lookupKey rest key

mutual

/-- `Merge for ProfileNode` from `src/profile.rs`: merge the attribute
fragments, then merge the children maps. -/
def ProfileNode.merge : ProfileNode → ProfileNode → ProfileNode
  | .mk a ca, .mk b cb => .mk (ProfileAttrBuilder.merge a b) (mergeChildrenInto ca cb)
termination_by _ y => (sizeOf y, 0)

/-- `Merge for HashMap` from `src/merge.rs`, on children maps: fold the
other map's entries into this map. -/
def mergeChildrenInto :
    List (Path × ProfileNode) → List (Path × ProfileNode) → List (Path × ProfileNode)
  | acc, [] => acc
  | acc, (k, v) :: rest => mergeChildrenInto (mergeChildEntry acc k v) rest
termination_by _ l => (sizeOf l, 0)

/-- One entry of the `HashMap` merge: insert at a vacant key, merge
recursively at an occupied key. -/
def mergeChildEntry :
    List (Path × ProfileNode) → Path → ProfileNode → List (Path × ProfileNode)
  | [], k, v => [(k, v)]
  | (k1, v1) :: rest, k, v =>
    if k1 = k then (k1, ProfileNode.merge v1 v) :: rest
    else (k1, v1) :: mergeChildEntry rest k v
termination_by l _ v => (sizeOf v, sizeOf l)

end

/-- `Merge for Profile` from `src/profile.rs`: merge the root nodes. -/
def Profile.merge (self other : Profile) : Profile :=
  ⟨ProfileNode.merge self.root other.root⟩

/-- `ComponentNode` from `src/profile.rs`: an attribute fragment plus a
`HashMap<&OsStr, ComponentNode>` of children keyed by a single path
component. -/
inductive ComponentNode where
  | mk (attr : ProfileAttrBuilder) (children : List (String × ComponentNode))

/-- The component node's accumulated attribute fragment. -/
def ComponentNode.attr : ComponentNode → ProfileAttrBuilder
  | .mk a _ => a

/-- The component node's children, keyed by single components. -/
def ComponentNode.children : ComponentNode → List (String × ComponentNode)
  | .mk _ c => c

/-- `ComponentNode::default()`: no attributes, no children. -/
def ComponentNode.empty : ComponentNode :=
  .mk ProfileAttrBuilder.empty []

mutual

/-- `update_component_tree` from `src/profile.rs`: walk `tree` down to
the last component of `target` (creating default nodes on the way),
merge the declaration node's fragment there, then thread every declared
child through the same subtree. -/
def update_component_tree : Path → ProfileNode → ComponentNode → ComponentNode
  | c :: rest, node, .mk a cs => .mk a (upsert_component_child cs c rest node)
  | [], .mk nattr nchildren, tree =>
    update_component_children nchildren (.mk (tree.attr.merge nattr) tree.children)
termination_by target node _ => (sizeOf node, sizeOf target, 0)

/-- The `children.entry(compo).or_default()` step: descend into the
component's child, creating it when absent. -/
def upsert_component_child :
    List (String × ComponentNode) → String → Path → ProfileNode → List (String × ComponentNode)
  | [], c, rest, node => [(c, update_component_tree rest node ComponentNode.empty)]
  | (k, t) :: tl, c, rest, node =>
    if k = c then (k, update_component_tree rest node t) :: tl
    else (k, t) :: upsert_component_child tl c rest node
termination_by l _ rest node => (sizeOf node, sizeOf rest, sizeOf l)

/-- The loop over `node.children` in `update_component_tree`. -/
def update_component_children : List (Path × ProfileNode) → ComponentNode → ComponentNode
  | [], tree => tree
  | (ct, cn) :: rest, tree => update_component_children rest (update_component_tree ct cn tree)
termination_by l _ => (sizeOf l, 0, 0)

end

/-- `Profile::build_component_tree`: thread the root node through an
empty component tree at the empty relative path. -/
def Profile.build_component_tree (self : Profile) : ComponentNode :=
  update_component_tree [] self.root ComponentNode.empty

/-- `Error` from `src/error.rs`, restricted to the compiler core.
`InvalidProfile` and `RenderError` belong to the CLI/apply layers and
are never produced by the embedded functions; `IoFailed` drops its
`std::io::Error` payload and keeps the offending path. -/
inductive Error where
  | UnexpectedChildren (path : Path)
  | InvalidPatternSet (path : Path)
  | IoFailed (path : Path)
  | UnexpectedDirectoryForTemplate (path : Path)
  | UnsupportedSymlinks (path : Path)
deriving DecidableEq, Repr

mutual

/-- `collect_entries_from_node` from `src/profile.rs`: inherit the
fragment from the parent, validate that a link/non-recursive-template
node has no children, recurse into the children, then append this
node's built attribute (when it has a resolved source). -/
def collect_entries_from_node :
    Path → ComponentNode → Path → ProfileAttrBuilder → List (Path × ProfileAttr) →
    Except Error (List (Path × ProfileAttr))
  | target, .mk attr0 children, parent_target, parent, collect_to =>
    let full_target := parent_target ++ target
    let attr := inherit_attr target attr0 parent
    if (attr.ty == some AttrType.template || attr.ty == some AttrType.link)
        && !(attr.recursive == some true) && !children.isEmpty then
      .error (.UnexpectedChildren full_target)
    else
      match collect_children children full_target attr collect_to with
      | .error e => .error e
      | .ok acc =>
        match attr.build full_target with
        | some built => .ok (acc ++ [(full_target, built)])
        | none => .ok acc
termination_by _ node _ _ _ => sizeOf node

/-- The loop over a component node's children in
`collect_entries_from_node`, threading the accumulator and stopping at
the first error. -/
def collect_children :
    List (String × ComponentNode) → Path → ProfileAttrBuilder → List (Path × ProfileAttr) →
    Except Error (List (Path × ProfileAttr))
  | [], _, _, collect_to => .ok collect_to
  | (child_target, child_node) :: rest, full_target, attr, collect_to =>
    match collect_entries_from_node [child_target] child_node full_target attr collect_to with
    | .error e => .error e
    | .ok acc => collect_children rest full_target attr acc
termination_by l _ _ _ => sizeOf l

end

/-- `Profile::into_entries` from `src/profile.rs`: build the component
tree, collect its entries from an empty context, and sort the result by
target path (`sort_by` comparing keys is a stable sort, as is
`List.insertionSort`). -/
def Profile.into_entries (self : Profile) : Except Error (List (Path × ProfileAttr)) :=
  match collect_entries_from_node [] self.build_component_tree [] ProfileAttrBuilder.empty [] with
  | .error e => .error e
  | .ok entries => .ok (entries.insertionSort fun a b => a.1 ≤ b.1)

theorem lookupKey_eq_none {α β : Type} [DecidableEq α] :
    ∀ (l : List (α × β)) (key : α), key ∉ l.map Prod.fst → lookupKey l key = none := by
  intro l
  induction l with
  | nil => intro key _; rfl
  | cons hd tl ih =>
    obtain ⟨k, v⟩ := hd
    intro key h
    have hk : ¬(k = key) := by
      intro he
      exact h (by simp [he])
    have htl : key ∉ tl.map Prod.fst := by
      intro hm
      exact h (by simp [hm])
    simp [lookupKey, hk, ih key htl]

theorem lookupKey_mergeChildEntry :
    ∀ (acc : List (Path × ProfileNode)) (k : Path) (v : ProfileNode) (key : Path),
      lookupKey (mergeChildEntry acc k v) key =
        if k = key then
          match lookupKey acc k with
          | some v1 => some (ProfileNode.merge v1 v)
          | none => some v
        else lookupKey acc key := by
  intro acc
  induction acc with
  | nil =>
    intro k v key
    by_cases h : k = key <;> simp [mergeChildEntry, lookupKey, h]
  | cons hd tl ih =>
    obtain ⟨k1, v1⟩ := hd
    intro k v key
    by_cases h1 : k1 = k
    · subst h1
      by_cases h2 : k1 = key <;>
        simp [mergeChildEntry, lookupKey, h2]
    · by_cases h2 : k1 = key
      · subst h2
        have hkk : ¬(k = k1) := fun he => h1 he.symm
        simp [mergeChildEntry, lookupKey, h1, hkk]
      · simp [mergeChildEntry, lookupKey, h1, h2, ih]

theorem lookupKey_mergeChildrenInto :
    ∀ (other acc : List (Path × ProfileNode)) (key : Path),
      (other.map Prod.fst).Nodup →
      lookupKey (mergeChildrenInto acc other) key =
        match lookupKey acc key, lookupKey other key with
        | some va, some vb => some (ProfileNode.merge va vb)
        | some va, none => some va
        | none, some vb => some vb
        | none, none => none := by
  intro other
  induction other with
  | nil =>
    intro acc key _
    cases h : lookupKey acc key <;> simp [mergeChildrenInto, lookupKey, h]
  | cons hd rest ih =>
    obtain ⟨k, v⟩ := hd
    intro acc key hnd
    rw [List.map_cons] at hnd
    have hk : k ∉ rest.map Prod.fst := (List.nodup_cons.mp hnd).1
    have hndr : (rest.map Prod.fst).Nodup := (List.nodup_cons.mp hnd).2
    have step : mergeChildrenInto acc ((k, v) :: rest) =
        mergeChildrenInto (mergeChildEntry acc k v) rest := by
      simp [mergeChildrenInto]
    rw [step, ih _ key hndr, lookupKey_mergeChildEntry]
    by_cases h : k = key
    · subst h
      rw [lookupKey_eq_none rest k hk]
      cases hacc : lookupKey acc k <;> simp [lookupKey, hacc]
    · simp [lookupKey, h]

/-- C10: Merging one `Profile` into another merges the root fragments by
the fragment-merge policy and the children maps key-by-key: a child path
present in only one profile appears unchanged, while a child path
present in both has its subtrees merged recursively by the same node
merge. -/
theorem c10_profile_merge : ∀ (p q : Profile),
    (q.root.children.map Prod.fst).Nodup →
    ((Profile.merge p q).root.attr = ProfileAttrBuilder.merge p.root.attr q.root.attr)
    ∧ ∀ key, lookupKey (Profile.merge p q).root.children key =
        match lookupKey p.root.children key, lookupKey q.root.children key with
        | some va, some vb => some (ProfileNode.merge va vb)
        | some va, none => some va
        | none, some vb => some vb
        | none, none => none := by
  intro p q hnd
  obtain ⟨pr⟩ := p
  obtain ⟨qr⟩ := q
  cases pr with
  | mk pa pc =>
    cases qr with
    | mk qa qc =>
      constructor
      · simp [Profile.merge, ProfileNode.merge, ProfileNode.attr]
      · intro key
        simp only [Profile.merge, ProfileNode.merge, ProfileNode.children] at *
        exact lookupKey_mergeChildrenInto qc pc key (by simpa using hnd)

/-- A concrete left profile for the `c10_profile_merge` instance: child
paths `a` (shared with the right profile) and `c` (left only). -/
def mergeExampleLeft : Profile :=
  ⟨.mk ProfileAttrBuilder.empty
    [(["a"], .mk ⟨some ["s1"], none, some true, none⟩ []),
     (["c"], .mk ⟨some ["s4"], none, none, none⟩ [])]⟩

/-- A concrete right profile for the `c10_profile_merge` instance: child
paths `a` (shared with the left profile) and `b` (right only). -/
def mergeExampleRight : Profile :=
  ⟨.mk ProfileAttrBuilder.empty
    [(["a"], .mk ⟨some ["s2"], some AttrType.link, none, none⟩ []),
     (["b"], .mk ⟨some ["s3"], none, none, none⟩ [])]⟩

/-- A concrete instance of `c10_profile_merge`: two root nodes whose
children overlap on `a`, with `b` only on the right and `c` only on the
left. -/
theorem c10_profile_merge_witness :
    ((mergeExampleRight.root.children.map Prod.fst).Nodup)
    ∧ (((Profile.merge mergeExampleLeft mergeExampleRight).root.attr
        = ProfileAttrBuilder.merge mergeExampleLeft.root.attr mergeExampleRight.root.attr)
      ∧ ∀ key,
          lookupKey (Profile.merge mergeExampleLeft mergeExampleRight).root.children key =
            (match lookupKey mergeExampleLeft.root.children key,
                lookupKey mergeExampleRight.root.children key with
            | some va, some vb => some (ProfileNode.merge va vb)
            | some va, none => some va
            | none, some vb => some vb
            | none, none => none)) :=
  ⟨by decide, c10_profile_merge mergeExampleLeft mergeExampleRight (by decide)⟩

mutual

theorem collect_error_path_length :
    ∀ (node : ComponentNode) (target parent_target : Path) (parent : ProfileAttrBuilder)
      (acc : List (Path × ProfileAttr)) (p : Path),
      collect_entries_from_node target node parent_target parent acc =
        .error (.UnexpectedChildren p) →
      (parent_target ++ target).length ≤ p.length := by
  intro node target parent_target parent acc p h
  cases node with
  | mk attr0 children =>
    rw [collect_entries_from_node] at h
    split at h
    · cases h
      exact Nat.le_refl _
    · split at h
      · cases h
        exact Nat.le_of_lt
          (collect_children_error_path_length children _ _ _ _ (by assumption))
      · split at h <;> cases h
termination_by node => sizeOf node

theorem collect_children_error_path_length :
    ∀ (l : List (String × ComponentNode)) (full_target : Path) (attr : ProfileAttrBuilder)
      (acc : List (Path × ProfileAttr)) (p : Path),
      collect_children l full_target attr acc = .error (.UnexpectedChildren p) →
      full_target.length < p.length := by
  intro l full_target attr acc p h
  match l with
  | [] =>
    rw [collect_children] at h
    cases h
  | (child_target, child_node) :: rest =>
    rw [collect_children] at h
    split at h
    · cases h
      have := collect_error_path_length child_node [child_target] full_target attr acc p
        (by assumption)
      simpa using this
    · exact collect_children_error_path_length rest full_target attr _ p h
termination_by l => sizeOf l

end

mutual

/-- Modelled from the spec (§4.4, steps 1-3 and 6): the entry list the
inheritance resolver is specified to produce from one subtree — the
children's entries in declaration order followed by this node's own
entry exactly when its resolved fragment has a `source` — written
without the validation and error plumbing, for comparison with
`collect_entries_from_node`. -/
def specEntries :
    Path → ComponentNode → Path → ProfileAttrBuilder → List (Path × ProfileAttr)
  | target, .mk attr0 children, parent_target, parent =>
    let full_target := parent_target ++ target
    let attr := inherit_attr target attr0 parent
    specEntriesChildren children full_target attr ++
      (match attr.build full_target with
       | some built => [(full_target, built)]
       | none => [])
termination_by _ node _ _ => sizeOf node

/-- The children part of `specEntries`. -/
def specEntriesChildren :
    List (String × ComponentNode) → Path → ProfileAttrBuilder → List (Path × ProfileAttr)
  | [], _, _ => []
  | (child_target, child_node) :: rest, full_target, attr =>
    specEntries [child_target] child_node full_target attr ++
      specEntriesChildren rest full_target attr
termination_by l _ _ => sizeOf l

end

mutual

theorem collect_ok_spec :
    ∀ (node : ComponentNode) (target parent_target : Path) (parent : ProfileAttrBuilder)
      (acc out : List (Path × ProfileAttr)),
      collect_entries_from_node target node parent_target parent acc = .ok out →
      out = acc ++ specEntries target node parent_target parent := by
  intro node target parent_target parent acc out h
  cases node with
  | mk attr0 children =>
    rw [collect_entries_from_node] at h
    rw [specEntries]
    split at h
    · cases h
    · split at h
      · cases h
      · rename_i acc1 heq
        have hacc1 := collect_children_ok_spec children _ _ acc acc1 heq
        split at h <;> cases h <;> simp [hacc1]
termination_by node => sizeOf node

theorem collect_children_ok_spec :
    ∀ (l : List (String × ComponentNode)) (full_target : Path) (attr : ProfileAttrBuilder)
      (acc out : List (Path × ProfileAttr)),
      collect_children l full_target attr acc = .ok out →
      out = acc ++ specEntriesChildren l full_target attr := by
  intro l full_target attr acc out h
  match l with
  | [] =>
    rw [collect_children] at h
    cases h
    simp [specEntriesChildren]
  | (child_target, child_node) :: rest =>
    rw [collect_children] at h
    split at h
    · cases h
    · rename_i acc1 heq
      have h1 := collect_ok_spec child_node [child_target] full_target attr acc acc1 heq
      have h2 := collect_children_ok_spec rest full_target attr acc1 out h
      simp [specEntriesChildren, h1, h2]
termination_by l => sizeOf l

end

/-- C4: `collect_entries_from_node` fails with `UnexpectedChildren`
carrying this node's full target path exactly when the node's
inherited attribute has type `Link` or `Template`, its inherited
`recursive` is not `true`, and the node has at least one child; the
condition uses the attributes after inheritance and depends on the
children only through their existence. -/
theorem c4_unexpected_children :
    ∀ (target : Path) (node : ComponentNode) (parent_target : Path)
      (parent : ProfileAttrBuilder) (acc : List (Path × ProfileAttr)),
      (collect_entries_from_node target node parent_target parent acc =
        .error (.UnexpectedChildren (parent_target ++ target)))
      ↔ (((inherit_attr target node.attr parent).ty = some AttrType.template
            ∨ (inherit_attr target node.attr parent).ty = some AttrType.link)
          ∧ (inherit_attr target node.attr parent).recursive ≠ some true
          ∧ node.children ≠ []) := by
  intro target node parent_target parent acc
  cases node with
  | mk attr0 children =>
    simp only [ComponentNode.attr, ComponentNode.children]
    have hcond :
        (((inherit_attr target attr0 parent).ty == some AttrType.template
            || (inherit_attr target attr0 parent).ty == some AttrType.link)
          && !((inherit_attr target attr0 parent).recursive == some true)
          && !children.isEmpty) = true
        ↔ (((inherit_attr target attr0 parent).ty = some AttrType.template
            ∨ (inherit_attr target attr0 parent).ty = some AttrType.link)
          ∧ (inherit_attr target attr0 parent).recursive ≠ some true
          ∧ children ≠ []) := by
      simp [List.isEmpty_iff, and_assoc]
    constructor
    · intro h
      rw [collect_entries_from_node] at h
      split at h
      · exact hcond.mp (by assumption)
      · exfalso
        split at h
        · cases h
          rename_i heq
          have := collect_children_error_path_length children _ _ _ _ heq
          omega
        · split at h <;> cases h
    · intro h
      rw [collect_entries_from_node]
      rw [if_pos (hcond.mpr h)]

instance : IsTrans (Path × ProfileAttr) (fun a b => a.1 ≤ b.1) :=
  ⟨fun _ _ _ h1 h2 => le_trans h1 h2⟩

instance : IsTotal (Path × ProfileAttr) (fun a b => a.1 ≤ b.1) :=
  ⟨fun a b => le_total a.1 b.1⟩

/-- C5: When `Profile::into_entries` succeeds its result is sorted by
target path and is a permutation of the specified entry list, which
contains one entry per component-tree node whose resolved fragment has
a `source` (sourceless nodes are dropped, which is what
`ProfileAttrBuilder::build` returning `none` exactly on a missing
source expresses); every built attribute defaults `ty` to `Copy`,
`recursive` to `false` and a missing ignore list to the empty pattern
set, which matches no name. -/
theorem c5_into_entries :
    (∀ (p : Profile) (es : List (Path × ProfileAttr)),
      p.into_entries = .ok es → es.Sorted fun a b => a.1 ≤ b.1)
    ∧ (∀ (p : Profile) (es : List (Path × ProfileAttr)),
      p.into_entries = .ok es →
        es.Perm (specEntries [] p.build_component_tree [] ProfileAttrBuilder.empty))
    ∧ (∀ (b : ProfileAttrBuilder) (t : Path), (b.build t).isSome ↔ b.source.isSome)
    ∧ (∀ (b : ProfileAttrBuilder) (t : Path) (s : Path), b.source = some s →
        b.build t = some ⟨s, b.ty.getD AttrType.copy, b.recursive.getD false,
          PatternSetBuilder.build (b.ignore.getD [])⟩)
    ∧ (∀ name, PatternSet.is_match (PatternSetBuilder.build []) name = false) := by
  refine ⟨?_, ?_, ?_, ?_, ?_⟩
  · intro p es h
    rw [Profile.into_entries] at h
    split at h
    · cases h
    · cases h
      exact List.sorted_insertionSort _ _
  · intro p es h
    rw [Profile.into_entries] at h
    split at h
    · cases h
    · cases h
      rename_i entries heq
      have hspec := collect_ok_spec _ _ _ _ _ _ heq
      simpa [hspec] using List.perm_insertionSort (fun a b => a.1 ≤ b.1) entries
  · intro b t
    cases hs : b.source <;> simp [ProfileAttrBuilder.build, hs]
  · intro b t s hs
    simp [ProfileAttrBuilder.build, hs]
  · intro name
    rfl

/-- A filesystem tree: plain files, directories with named entries, and
symlinks storing their textual target path (resolved against the
root). -/
inductive FsNode where
  | file
  | dir (entries : List (String × FsNode))
  | symlink (target : Path)

/-- Look up the node a path denotes without following a symlink at the
final component (the `lstat` view); the examples in this file place no
symlink at an intermediate component, so none are followed there
either. -/
def rawLookup : FsNode → Path → Option FsNode
  | n, [] => some n
  | .dir entries, c :: rest =>
    match lookupKey entries c with
    | some n => rawLookup n rest
    | none => none
  | _, _ :: _ => none

/-- Resolve a chain of symlinks, `fuel` bounding the chain length as
the kernel's ELOOP limit does; the result is never a symlink. -/
def resolveLinks (fs : FsNode) : Nat → FsNode → Option FsNode
  | _, .file => some .file
  | _, .dir entries => some (.dir entries)
  | 0, .symlink _ => none
  | fuel + 1, .symlink target =>
    match rawLookup fs target with
    | some n => resolveLinks fs fuel n
    | none => none

/-- The file-type bits of a `std::fs::Metadata` the compiler inspects. -/
structure Metadata where
  is_dir : Bool
  is_symlink : Bool
deriving DecidableEq, Repr

/-- `std::fs::metadata` (`Path::metadata`): stat the path, following
symlinks (64 models the kernel's bound on a chain); a dangling or
cyclic chain is an IO error. The result describes the followed target,
so its file type is never a symlink — proved as
`metadata_is_symlink_false`. -/
def metadata (fs : FsNode) (p : Path) : Option Metadata :=
  match rawLookup fs p with
  | none => none
  | some n =>
    match resolveLinks fs 64 n with
    | some .file => some ⟨false, false⟩
    | some (.dir _) => some ⟨true, false⟩
    | some (.symlink _) => some ⟨false, true⟩
    | none => none

/-- `std::fs::read_link`: the stored target of a symlink, one level
only. -/
def read_link (fs : FsNode) (p : Path) : Option Path :=
  match rawLookup fs p with
  | some (.symlink target) => some target
  | _ => none

/-- `std::fs::read_dir`: the filenames of a directory's entries, in the
model's fixed order (the OS order is unspecified). -/
def read_dir (fs : FsNode) (p : Path) : Option (List String) :=
  match rawLookup fs p with
  | none => none
  | some n =>
    match resolveLinks fs 64 n with
    | some (.dir entries) => some (entries.map Prod.fst)
    | _ => none

/-- `CompiledProfile` from `src/compile.rs`: a concrete source path and
an action type for one target. -/
structure CompiledProfile where
  source : Path
  ty : AttrType
deriving DecidableEq, Repr

/-- `CompiledEntries` from `src/compile.rs`: the output
`HashMap<PathBuf, CompiledProfile>`, as an association list. -/
abbrev CompiledEntries := List (Path × CompiledProfile)

/-- `HashMap::contains_key` on the output map. -/
def containsKey (self : CompiledEntries) (key : Path) : Bool :=
  (lookupKey self key).isSome

/-- `HashMap::insert` on the output map: replace an existing binding or
append a new one. -/
def insertCompiled (self : CompiledEntries) (key : Path) (v : CompiledProfile) :
    CompiledEntries :=
  match self with
  | [] => [(key, v)]
  | (k, v0) :: rest =>
    if k = key then (k, v) :: rest else (k, v0) :: insertCompiled rest key v

/-- `CompilerOptions` from `src/compile.rs`: the source and target root
directories. -/
structure CompilerOptions where
  source : Path
  target : Path
deriving DecidableEq, Repr

/-- The build's platform: the `cfg!(not(unix))` check in `compile` is
modelled for a unix build, where symlinks are supported. -/
def cfg_unix : Bool := true

/-- The loop of step 3 of `compile_entry` (`src/compile.rs`): iterate
the directory's filenames, skip each one the ignore set matches
(`attr.ignore.is_match(&filename)` receives the bare filename), and
compile the others through the child compiler `f` at target and source
each extended by the filename. -/
def compile_children (f : Path → Path → CompiledEntries → Except Error CompiledEntries)
    (ignore : PatternSet) (target source : Path) :
    List String → CompiledEntries → Except Error CompiledEntries
  | [], compiled => .ok compiled
  | filename :: rest, compiled =>
    if PatternSet.is_match ignore filename then
      compile_children f ignore target source rest compiled
    else
      match f (target ++ [filename]) (source ++ [filename]) compiled with
      | .error e => .error e
      | .ok compiled1 => compile_children f ignore target source rest compiled1

/-- `compile_entry` from `src/compile.rs`. Steps, as numbered in the
source: 1) return unchanged when the target is already compiled (the
dedup guard); 2) stat the source; were the metadata to denote a
symlink, replace the source by its one-level link target; 3) on a
directory, recurse once per non-ignored entry when the effective
recursive flag is set, fail for a non-recursive template, else fall
through; 4) record the action. `fuel` bounds the recursion depth,
standing in for the OS resource limits that bound the real recursion;
running out is modelled as the IO failure the OS would produce, and
every concrete run below finishes well within its fuel. -/
def compile_entry (fs : FsNode) :
    Nat → Path → Path → ProfileAttr → Bool → CompiledEntries → Except Error CompiledEntries
  | 0, target, source, _, _, compiled =>
    if containsKey compiled target then .ok compiled
    else .error (.IoFailed source)
  | fuel + 1, target, source, attr, recursive, compiled =>
    if containsKey compiled target then .ok compiled
    else
      match metadata fs source with
      | none => .error (.IoFailed source)
      | some md =>
        match (if md.is_symlink then read_link fs source else some source) with
        | none => .error (.IoFailed source)
        | some source1 =>
          if md.is_dir && recursive then
            match read_dir fs source1 with
            | none => .error (.IoFailed source1)
            | some filenames =>
              compile_children (fun t s c => compile_entry fs fuel t s attr recursive c)
                attr.ignore target source1 filenames compiled
          else if md.is_dir && (attr.ty == AttrType.template) then
            .error (.UnexpectedDirectoryForTemplate source1)
          else .ok (insertCompiled compiled target ⟨source1, attr.ty⟩)

/-- The loop of `compile` (`src/compile.rs`) over the already-reversed
entry list: reject links on a non-unix build, then compile each entry
at the joined absolute target and source with the effective recursive
flag `attr.recursive || attr.ty == Copy`. -/
def compileEntriesLoop (fs : FsNode) (fuel : Nat) (options : CompilerOptions) :
    List (Path × ProfileAttr) → CompiledEntries → Except Error CompiledEntries
  | [], compiled => .ok compiled
  | (target, attr) :: rest, compiled =>
    if !cfg_unix && (attr.ty == AttrType.link) then
      .error (.UnsupportedSymlinks attr.source)
    else
      match compile_entry fs fuel (options.target ++ target)
          (options.source ++ attr.source) attr
          (attr.recursive || (attr.ty == AttrType.copy)) compiled with
      | .error e => .error e
      | .ok compiled1 => compileEntriesLoop fs fuel options rest compiled1

/-- `compile` from `src/compile.rs`: compile the entries in reverse
sorted order ("Compile child targets first to avoid double compiling"),
starting from an empty output map. -/
def compile (fs : FsNode) (fuel : Nat) (options : CompilerOptions)
    (entries : List (Path × ProfileAttr)) : Except Error CompiledEntries :=
  compileEntriesLoop fs fuel options entries.reverse []

theorem lookupKey_insertCompiled :
    ∀ (self : CompiledEntries) (k : Path) (v : CompiledProfile) (key : Path),
      lookupKey (insertCompiled self k v) key =
        if k = key then some v else lookupKey self key := by
  intro self
  induction self with
  | nil =>
    intro k v key
    by_cases h : k = key <;> simp [insertCompiled, lookupKey, h]
  | cons hd tl ih =>
    obtain ⟨k1, v1⟩ := hd
    intro k v key
    by_cases h1 : k1 = k
    · subst h1
      by_cases h2 : k1 = key <;> simp [insertCompiled, lookupKey, h2]
    · by_cases h2 : k1 = key
      · subst h2
        have hkk : ¬(k = k1) := fun he => h1 he.symm
        simp [insertCompiled, lookupKey, h1, hkk]
      · simp [insertCompiled, lookupKey, h1, h2, ih]

theorem compile_entry_of_containsKey :
    ∀ (fs : FsNode) (fuel : Nat) (target source : Path) (attr : ProfileAttr)
      (recursive : Bool) (compiled : CompiledEntries),
      containsKey compiled target = true →
      compile_entry fs fuel target source attr recursive compiled = .ok compiled := by
  intro fs fuel target source attr recursive compiled h
  cases fuel <;> simp [compile_entry, h]

theorem compile_children_preserve :
    ∀ (f : Path → Path → CompiledEntries → Except Error CompiledEntries)
      (ignore : PatternSet) (target source : Path) (names : List String)
      (compiled out : CompiledEntries),
      (∀ t s c o, f t s c = .ok o →
        ∀ k, (lookupKey c k).isSome → lookupKey o k = lookupKey c k) →
      compile_children f ignore target source names compiled = .ok out →
      ∀ k, (lookupKey compiled k).isSome → lookupKey out k = lookupKey compiled k := by
  intro f ignore target source names
  induction names with
  | nil =>
    intro compiled out _ h k _
    rw [compile_children] at h
    injection h with h
    rw [h]
  | cons filename rest ih =>
    intro compiled out hf h k hk
    rw [compile_children] at h
    split at h
    · exact ih compiled out hf h k hk
    · split at h
      · cases h
      · rename_i compiled1 heq
        have h1 := hf _ _ _ _ heq k hk
        have hk1 : (lookupKey compiled1 k).isSome := by
          rw [h1]; exact hk
        rw [ih compiled1 out hf h k hk1, h1]

theorem compile_entry_preserve :
    ∀ (fs : FsNode) (fuel : Nat) (target source : Path) (attr : ProfileAttr)
      (recursive : Bool) (compiled out : CompiledEntries),
      compile_entry fs fuel target source attr recursive compiled = .ok out →
      ∀ k, (lookupKey compiled k).isSome → lookupKey out k = lookupKey compiled k := by
  intro fs fuel
  induction fuel with
  | zero =>
    intro target source attr recursive compiled out h k hk
    rw [compile_entry] at h
    split at h
    · injection h with h
      rw [h]
    · cases h
  | succ fuel ih =>
    intro target source attr recursive compiled out h k hk
    rw [compile_entry] at h
    split at h
    · injection h with h
      rw [h]
    · rename_i hguard
      split at h
      · cases h
      · split at h
        · cases h
        · split at h
          · split at h
            · cases h
            · exact compile_children_preserve _ _ _ _ _ _ _
                (fun t s c o hc => ih t s attr recursive c o hc) h k hk
          · split at h
            · cases h
            · injection h with h
              subst h
              rw [lookupKey_insertCompiled]
              have hne : ¬(target = k) := by
                intro he
                subst he
                rw [containsKey] at hguard
                simp only [Bool.not_eq_true] at hguard
                rw [hguard] at hk
                cases hk
              simp [hne]

theorem compile_children_new_key :
    ∀ (f : Path → Path → CompiledEntries → Except Error CompiledEntries)
      (ignore : PatternSet) (target source : Path) (names : List String)
      (compiled out : CompiledEntries),
      (∀ t s c o, f t s c = .ok o →
        ∀ k, lookupKey c k = none → (lookupKey o k).isSome → t.length ≤ k.length) →
      compile_children f ignore target source names compiled = .ok out →
      ∀ k, lookupKey compiled k = none → (lookupKey out k).isSome →
      target.length + 1 ≤ k.length := by
  intro f ignore target source names
  induction names with
  | nil =>
    intro compiled out _ h k hnone hsome
    rw [compile_children] at h
    injection h with h
    rw [← h, hnone] at hsome
    cases hsome
  | cons filename rest ih =>
    intro compiled out hf h k hnone hsome
    rw [compile_children] at h
    split at h
    · exact ih compiled out hf h k hnone hsome
    · split at h
      · cases h
      · rename_i compiled1 heq
        cases h1 : lookupKey compiled1 k with
        | none => exact ih compiled1 out hf h k h1 hsome
        | some v =>
          have := hf _ _ _ _ heq k hnone (by rw [h1]; rfl)
          simpa using this

theorem compile_entry_new_key :
    ∀ (fs : FsNode) (fuel : Nat) (target source : Path) (attr : ProfileAttr)
      (recursive : Bool) (compiled out : CompiledEntries),
      compile_entry fs fuel target source attr recursive compiled = .ok out →
      ∀ k, lookupKey compiled k = none → (lookupKey out k).isSome →
      target.length ≤ k.length := by
  intro fs fuel
  induction fuel with
  | zero =>
    intro target source attr recursive compiled out h k hnone hsome
    rw [compile_entry] at h
    split at h
    · injection h with h
      rw [← h, hnone] at hsome
      cases hsome
    · cases h
  | succ fuel ih =>
    intro target source attr recursive compiled out h k hnone hsome
    rw [compile_entry] at h
    split at h
    · injection h with h
      rw [← h, hnone] at hsome
      cases hsome
    · split at h
      · cases h
      · split at h
        · cases h
        · split at h
          · split at h
            · cases h
            · have := compile_children_new_key _ _ _ _ _ _ _
                (fun t s c o hc => ih t s attr recursive c o hc) h k hnone hsome
              omega
          · split at h
            · cases h
            · injection h with h
              subst h
              rw [lookupKey_insertCompiled] at hsome
              by_cases he : target = k
              · subst he
                exact Nat.le_refl _
              · rw [if_neg he, hnone] at hsome
                cases hsome

theorem resolveLinks_ne_symlink :
    ∀ (fs : FsNode) (fuel : Nat) (n : FsNode) (t : Path),
      resolveLinks fs fuel n ≠ some (.symlink t) := by
  intro fs fuel
  induction fuel with
  | zero =>
    intro n t h
    cases n <;> simp [resolveLinks] at h
  | succ fuel ih =>
    intro n t h
    cases n with
    | file => simp [resolveLinks] at h
    | dir entries => simp [resolveLinks] at h
    | symlink target =>
      rw [resolveLinks] at h
      split at h
      · exact ih _ t h
      · cases h

theorem metadata_is_symlink_false :
    ∀ (fs : FsNode) (p : Path) (md : Metadata),
      metadata fs p = some md → md.is_symlink = false := by
  intro fs p md h
  rw [metadata] at h
  split at h
  · cases h
  · split at h
    · injection h with h
      rw [← h]
    · injection h with h
      rw [← h]
    · rename_i heq
      exact absurd heq (resolveLinks_ne_symlink fs 64 _ _)
    · cases h

theorem lookupKey_eq_none_of_not_containsKey :
    ∀ (c : CompiledEntries) (t : Path), containsKey c t = false → lookupKey c t = none := by
  intro c t h
  rw [containsKey] at h
  cases hl : lookupKey c t
  · rfl
  · rw [hl] at h
    cases h

/-- The source tree of the precedence example: a file `x` and a
directory `y` containing a file `b`. -/
def precedenceFs : FsNode :=
  .dir [("x", .file), ("y", .dir [("b", .file)])]

/-- The resolved entries of the precedence example, in sorted order:
ancestor `a` is `{source y, link, recursive}` and `a/b` is explicitly
`{source x, copy}`. -/
def precedenceEntries : List (Path × ProfileAttr) :=
  [(["a"], ⟨["y"], AttrType.link, true, ⟨[]⟩⟩),
   (["a", "b"], ⟨["x"], AttrType.copy, false, ⟨[]⟩⟩)]

/-- C2: The dedup guard — `compile_entry` returns the map unchanged
whenever the absolute target is already a key, and a successful
`compile_entry` never changes an existing binding; `compile` walks the
entries in reverse, so in the precedence example the explicit `a/b`
entry is compiled first and the ancestor's recursive expansion cannot
overwrite it: the final map binds `a/b` to `{x, copy}`, not to
`{y/b, link}`. -/
theorem c2_dedup_guard :
    (∀ (fs : FsNode) (fuel : Nat) (target source : Path) (attr : ProfileAttr)
      (recursive : Bool) (compiled : CompiledEntries),
      containsKey compiled target = true →
      compile_entry fs fuel target source attr recursive compiled = .ok compiled)
    ∧ (∀ (fs : FsNode) (fuel : Nat) (target source : Path) (attr : ProfileAttr)
      (recursive : Bool) (compiled out : CompiledEntries),
      compile_entry fs fuel target source attr recursive compiled = .ok out →
      ∀ k, (lookupKey compiled k).isSome → lookupKey out k = lookupKey compiled k)
    ∧ (compile precedenceFs 5 ⟨[], []⟩ precedenceEntries =
        .ok [(["a", "b"], ⟨["x"], AttrType.copy⟩)]) := by
  refine ⟨compile_entry_of_containsKey, ?_, rfl⟩
  intro fs fuel target source attr recursive compiled out h k hk
  exact compile_entry_preserve fs fuel target source attr recursive compiled out h k hk

/-- The source tree of the directory-expansion examples: `p/s` is a
directory holding the plain files `f1` and `f2`. -/
def plainDirFs : FsNode :=
  .dir [("p", .dir [("s", .dir [("f1", .file), ("f2", .file)])])]

/-- C3: On a directory source with the effective-recursive flag set,
`compile_entry` records nothing for the directory itself and recurses
once per directory entry through `compile_children`, which extends
target and source by each entry's filename and passes the same
attribute and recursive policy; the profile `{p/t: p/s}` over
`p/s/{f1,f2}` therefore compiles to exactly the two copy actions for
`f1` and `f2` (Copy forces the recursive expansion in `compile`). -/
theorem c3_recursive_directory_expansion :
    (∀ (fs : FsNode) (fuel : Nat) (target source : Path) (attr : ProfileAttr)
      (compiled : CompiledEntries) (md : Metadata) (filenames : List String),
      containsKey compiled target = false →
      metadata fs source = some md →
      md.is_dir = true →
      read_dir fs source = some filenames →
      compile_entry fs (fuel + 1) target source attr true compiled =
        compile_children (fun t s c => compile_entry fs fuel t s attr true c)
          attr.ignore target source filenames compiled)
    ∧ (∀ (fs : FsNode) (fuel : Nat) (target source : Path) (attr : ProfileAttr)
      (compiled out : CompiledEntries) (md : Metadata),
      containsKey compiled target = false →
      metadata fs source = some md →
      md.is_dir = true →
      compile_entry fs fuel target source attr true compiled = .ok out →
      lookupKey out target = none)
    ∧ (compile plainDirFs 5 ⟨[], []⟩
        [(["p", "t"], ⟨["p", "s"], AttrType.copy, false, ⟨[]⟩⟩)] =
      .ok [(["p", "t", "f1"], ⟨["p", "s", "f1"], AttrType.copy⟩),
           (["p", "t", "f2"], ⟨["p", "s", "f2"], AttrType.copy⟩)]) := by
  have expand : ∀ (fs : FsNode) (fuel : Nat) (target source : Path) (attr : ProfileAttr)
      (compiled : CompiledEntries) (md : Metadata) (filenames : List String),
      containsKey compiled target = false →
      metadata fs source = some md →
      md.is_dir = true →
      read_dir fs source = some filenames →
      compile_entry fs (fuel + 1) target source attr true compiled =
        compile_children (fun t s c => compile_entry fs fuel t s attr true c)
          attr.ignore target source filenames compiled := by
    intro fs fuel target source attr compiled md filenames hguard hmd hdir hrd
    have hsym := metadata_is_symlink_false fs source md hmd
    rw [compile_entry, if_neg (by simp [hguard]), hmd]
    simp [hsym, hdir, hrd]
  refine ⟨expand, ?_, rfl⟩
  intro fs fuel target source attr compiled out md hguard hmd hdir h
  have hnone := lookupKey_eq_none_of_not_containsKey compiled target hguard
  cases fuel with
  | zero =>
    rw [compile_entry, if_neg (by simp [hguard])] at h
    cases h
  | succ fuel =>
    cases hrd : read_dir fs source with
    | none =>
      exfalso
      have hsym := metadata_is_symlink_false fs source md hmd
      rw [compile_entry, if_neg (by simp [hguard]), hmd] at h
      simp [hsym, hdir, hrd] at h
    | some filenames =>
      rw [expand fs fuel target source attr compiled md filenames hguard hmd hdir hrd] at h
      cases hsome : lookupKey out target with
      | none => rfl
      | some v =>
        exfalso
        have := compile_children_new_key _ _ _ _ _ _ _
          (fun t s c o hc => compile_entry_new_key fs fuel t s attr true c o hc)
          h target hnone (by rw [hsome]; rfl)
        omega

/-- C6, general part and the two end-to-end examples: a non-recursive
entry whose source is a directory fails with
`UnexpectedDirectoryForTemplate` naming the source when the type is
`Template`, and otherwise records the single action binding the target
to the whole directory — for `type: link`, one whole-directory symlink
action. -/
theorem c6_nonrecursive_directory :
    (∀ (fs : FsNode) (fuel : Nat) (target source : Path) (attr : ProfileAttr)
      (compiled : CompiledEntries) (md : Metadata),
      containsKey compiled target = false →
      metadata fs source = some md →
      md.is_dir = true →
      compile_entry fs (fuel + 1) target source attr false compiled =
        (if attr.ty = AttrType.template then
          .error (.UnexpectedDirectoryForTemplate source)
        else .ok (insertCompiled compiled target ⟨source, attr.ty⟩)))
    ∧ (compile plainDirFs 5 ⟨[], []⟩
        [(["p", "t"], ⟨["p", "s"], AttrType.link, false, ⟨[]⟩⟩)] =
      .ok [(["p", "t"], ⟨["p", "s"], AttrType.link⟩)])
    ∧ (compile plainDirFs 5 ⟨[], []⟩
        [(["p", "t"], ⟨["p", "s"], AttrType.template, false, ⟨[]⟩⟩)] =
      .error (.UnexpectedDirectoryForTemplate ["p", "s"])) := by
  refine ⟨?_, rfl, rfl⟩
  intro fs fuel target source attr compiled md hguard hmd hdir
  have hsym := metadata_is_symlink_false fs source md hmd
  rw [compile_entry, if_neg (by simp [hguard]), hmd]
  by_cases hty : attr.ty = AttrType.template <;> simp [hsym, hdir, hty]

/-- The source tree of the ignore example: `p/s` holds the plain files
`skip1` and `keep1`. -/
def ignoreFs : FsNode :=
  .dir [("p", .dir [("s", .dir [("skip1", .file), ("keep1", .file)])])]

/-- C7: During directory expansion a directory entry is skipped exactly
when the ignore set matches its bare filename — the matcher receives
only the filename, and the full paths are formed afterwards by
extending target and source with it; with ignore `["skip*"]` over a
directory holding `skip1` and `keep1`, only `keep1` is compiled. -/
theorem c7_ignore_filtering :
    (∀ (f : Path → Path → CompiledEntries → Except Error CompiledEntries)
      (ignore : PatternSet) (target source : Path) (filename : String)
      (rest : List String) (compiled : CompiledEntries),
      PatternSet.is_match ignore filename = true →
      compile_children f ignore target source (filename :: rest) compiled =
        compile_children f ignore target source rest compiled)
    ∧ (∀ (f : Path → Path → CompiledEntries → Except Error CompiledEntries)
      (ignore : PatternSet) (target source : Path) (filename : String)
      (rest : List String) (compiled : CompiledEntries),
      PatternSet.is_match ignore filename = false →
      compile_children f ignore target source (filename :: rest) compiled =
        (match f (target ++ [filename]) (source ++ [filename]) compiled with
         | .error e => .error e
         | .ok compiled1 => compile_children f ignore target source rest compiled1))
    ∧ (PatternSet.is_match ⟨["skip*"]⟩ "skip1" = true)
    ∧ (PatternSet.is_match ⟨["skip*"]⟩ "keep1" = false)
    ∧ (compile ignoreFs 5 ⟨[], []⟩
        [(["p", "t"], ⟨["p", "s"], AttrType.copy, false, ⟨["skip*"]⟩⟩)] =
      .ok [(["p", "t", "keep1"], ⟨["p", "s", "keep1"], AttrType.copy⟩)]) := by
  refine ⟨?_, ?_, rfl, rfl, rfl⟩
  · intro f ignore target source filename rest compiled h
    rw [compile_children, if_pos h]
  · intro f ignore target source filename rest compiled h
    rw [compile_children, if_neg (by simp [h])]

/-- The failing input for the symlink-resolution step: the absolute
source `s` is a symlink whose one-level target is the plain file `f`. -/
def symlinkFs : FsNode :=
  .dir [("f", .file), ("s", .symlink ["f"])]

/-- C9, evaluated against the code: `std::fs::metadata` follows
symlinks, so the metadata `compile_entry` queries never denotes a
symlink and the replacement branch never runs. At the failing input —
source `s`, a symlink whose stored one-level target is `f` — the
metadata call reports a plain non-symlink file and the compiled action
keeps the unresolved source `s` instead of the link target `f` that the
claimed one-level resolution would substitute. -/
theorem c9_symlink_resolution_dead :
    (∀ (fs : FsNode) (p : Path) (md : Metadata),
      metadata fs p = some md → md.is_symlink = false)
    ∧ (read_link symlinkFs ["s"] = some ["f"])
    ∧ (metadata symlinkFs ["s"] = some ⟨false, false⟩)
    ∧ (compile symlinkFs 5 ⟨[], []⟩
        [(["t"], ⟨["s"], AttrType.copy, false, ⟨[]⟩⟩)] =
      .ok [(["t"], ⟨["s"], AttrType.copy⟩)]) :=
  ⟨metadata_is_symlink_false, rfl, rfl, rfl⟩

end Dbot
